import Mathlib

/-!
Verification of the alx-files_manager service core: the token session layer
(Credential Cache over a TTL key-value store, `src/utils/redis.js`), the
route table and X-Token middleware (`src/unnamed/part_000`), and the file
catalog / blob store / thumbnail pipeline operations.  Parts of the
repository whose controllers are not present in the source tree are
modelled from the specification and marked as such in their doc comments.
-/

namespace FilesManager

/-! ## TTL key-value store (embedding of `src/utils/redis.js`)

The underlying Redis store is modelled as an association list from keys to
a value together with an optional absolute expiry instant (in seconds).
`expiry = none` models a plain `SET` with no time-to-live; the
`RedisClient.set` method of the source only ever issues `SETEX`, so it
always writes a `some` expiry. -/

/-- One stored entry: value and optional absolute expiry time (seconds). -/
structure Entry where
  value : String
  expiry : Option Nat
deriving DecidableEq, Repr

/-- The state of the TTL key-value store: an association list from keys to
entries.  Keys are kept unique by construction (`rSet` erases before it
inserts). -/
structure TTLStore where
  entries : List (String × Entry)
deriving DecidableEq, Repr

/-- The empty store. -/
def TTLStore.empty : TTLStore := ⟨[]⟩

/-- Embedding of `RedisClient.set` (src/utils/redis.js lines 51-53): the
method always issues `SETEX key duration value`, i.e. it stores the value
with an absolute expiry of `now + duration` seconds, replacing any previous
entry under the key. -/
def rSet (s : TTLStore) (key value : String) (duration now : Nat) : TTLStore :=
  ⟨(key, ⟨value, some (now + duration)⟩) :: s.entries.filter (fun e => e.1 ≠ key)⟩

/-- Embedding of `RedisClient.get` (src/utils/redis.js lines 40-42): Redis
`GET` returns the stored value when the key exists and has not expired
(an entry with expiry `e` is visible at instants strictly before `e`),
and `null` (here `none`) otherwise. -/
def rGet (s : TTLStore) (key : String) (now : Nat) : Option String :=
  match s.entries.find? (fun e => e.1 = key) with
  | none => none
  | some (_, entry) =>
    match entry.expiry with
    | none => some entry.value
    | some e => if now < e then some entry.value else none

/-- Embedding of `RedisClient.del` (src/utils/redis.js lines 60-62): Redis
`DEL` removes the key if present and is a no-op otherwise. -/
def rDel (s : TTLStore) (key : String) : TTLStore :=
  ⟨s.entries.filter (fun e => e.1 ≠ key)⟩

/-! ## Credential Cache

The AuthController that issues and revokes session tokens is not present
under the source tree; only the store methods it calls are.  Its three
operations are modelled from the spec on top of the embedded store. -/

/-- The Redis key under which a session token is stored. -/
def tokenKey (token : String) : String := "auth_" ++ token

/-- The session time-to-live: 24 hours, in seconds. -/
def tokenTTL : Nat := 24 * 3600

/-- Modelled from the spec: `issue(user) -> token` of the Credential Cache
(§4.2); the AuthController calling `RedisClient.set` is missing from the
source tree.  Stores `token -> userID` with a 24-hour expiry via the
embedded `rSet`. -/
def issue (s : TTLStore) (token user : String) (now : Nat) : TTLStore :=
  rSet s (tokenKey token) user tokenTTL now

/-- Modelled from the spec: `lookup(token) -> userID | absent` of the
Credential Cache (§4.2); the caller of `RedisClient.get` is missing from
the source tree. -/
def lookup (s : TTLStore) (token : String) (now : Nat) : Option String :=
  rGet s (tokenKey token) now

/-- Modelled from the spec: `revoke(token)` of the Credential Cache (§4.2);
the caller of `RedisClient.del` is missing from the source tree. -/
def revoke (s : TTLStore) (token : String) : TTLStore :=
  rDel s (tokenKey token)

/-! ## Routes and authentication middleware (embedding of `src/unnamed/part_000`) -/

/-- The outcome handed back to the HTTP boundary by a middleware or handler. -/
structure ApiResponse where
  status : Nat
  error : Option String
deriving DecidableEq, Repr

/-- Embedding of `basicAuthenticate` (src/unnamed/part_000 lines 46-55):
when `getUserFromAuthorization` resolves no user, respond 401 Unauthorized
and stop; otherwise attach the user and continue with the next handler. -/
def basicAuthenticate (user : Option String) (handler : String → ApiResponse) : ApiResponse :=
  match user with
  | none => ⟨401, some "Unauthorized"⟩
  | some u => handler u

/-- Embedding of `xTokenAuthenticate` (src/unnamed/part_000 lines 63-72):
when `getUserFromXToken` resolves no user, respond 401 Unauthorized and
stop; otherwise attach the user and continue with the next handler. -/
def xTokenAuthenticate (user : Option String) (handler : String → ApiResponse) : ApiResponse :=
  match user with
  | none => ⟨401, some "Unauthorized"⟩
  | some u => handler u

/-- Modelled from the spec: `getUserFromXToken` of the missing
`src/utils/auth` module.  Per §4.1/§4.2, it reads the request's token,
resolves it through the Credential Cache, and returns the user only when
both the token mapping and the user record exist. -/
def getUserFromXToken (cache : TTLStore) (users : List String)
    (token : Option String) (now : Nat) : Option String :=
  match token with
  | none => none
  | some t =>
    match lookup cache t now with
    | none => none
    | some uid => if uid ∈ users then some uid else none

/-- The request handlers named in `injectRoutes` (src/unnamed/part_000). -/
inductive Handler
  | getStatus | getStats | getConnect | getDisconnect | postNew | getMe
  | postUpload | getShow | getIndex | putPublish | putUnpublish | getFile
deriving DecidableEq, Repr

/-- The two authentication middlewares of src/unnamed/part_000. -/
inductive Middleware
  | basicAuth
  | xTokenAuth
deriving DecidableEq, Repr

/-- One route registration: HTTP method, path, middlewares applied before
the handler, and the handler itself. -/
structure Route where
  method : String
  path : String
  middlewares : List Middleware
  handler : Handler
deriving DecidableEq, Repr

/-- Embedding of `injectRoutes` (src/unnamed/part_000 lines 78-106): the
exact route table registered on the Express application, in order. -/
def injectRoutes : List Route :=
  [⟨"GET", "/status", [], Handler.getStatus⟩,
   ⟨"GET", "/stats", [], Handler.getStats⟩,
   ⟨"GET", "/connect", [Middleware.basicAuth], Handler.getConnect⟩,
   ⟨"GET", "/disconnect", [Middleware.xTokenAuth], Handler.getDisconnect⟩,
   ⟨"POST", "/users", [], Handler.postNew⟩,
   ⟨"GET", "/users/me", [Middleware.xTokenAuth], Handler.getMe⟩,
   ⟨"POST", "/files", [Middleware.xTokenAuth], Handler.postUpload⟩,
   ⟨"GET", "/files/:id", [Middleware.xTokenAuth], Handler.getShow⟩,
   ⟨"GET", "/files", [Middleware.xTokenAuth], Handler.getIndex⟩,
   ⟨"PUT", "/files/:id/publish", [Middleware.xTokenAuth], Handler.putPublish⟩,
   ⟨"PUT", "/files/:id/unpublish", [Middleware.xTokenAuth], Handler.putUnpublish⟩,
   ⟨"GET", "/files/:id/data", [], Handler.getFile⟩]

/-- Runs a route's middleware chain: each authentication middleware rejects
the request with 401 when its resolved user is absent, and otherwise passes
control on; with an empty chain the handler outcome `run` is returned
untouched.  `xu` is the user resolved by `getUserFromXToken`, `bu` the one
resolved by `getUserFromAuthorization`. -/
def runMiddlewares (ms : List Middleware) (xu bu : Option String) (run : ApiResponse) :
    ApiResponse :=
  match ms with
  | [] => run
  | Middleware.xTokenAuth :: rest =>
    xTokenAuthenticate xu (fun _ => runMiddlewares rest xu bu run)
  | Middleware.basicAuth :: rest =>
    basicAuthenticate bu (fun _ => runMiddlewares rest xu bu run)

/-! ## File Catalog, Blob Store and Thumbnail Pipeline

The FilesController and the thumbnail worker are not present under the
source tree; the operations below are modelled from the spec (§3, §4.3,
§4.4, §4.5). -/

/-- The recognized file kinds (§3). -/
inductive FileKind
  | folder
  | file
  | image
deriving DecidableEq, Repr

/-- A File Record (§3): catalog identifier, owning user, display name,
kind, parent identifier (0 is the root sentinel), public flag, storage
locator (none for folders). -/
structure FileRecord where
  id : Nat
  owner : Nat
  name : String
  kind : FileKind
  parent : Nat
  isPublic : Bool
  locator : Option String
deriving DecidableEq, Repr

/-- The File Catalog state: records in creation order plus the next
identifier to assign. -/
structure Catalog where
  records : List FileRecord
  nextId : Nat
deriving DecidableEq, Repr

/-- Find a record by identifier. -/
def findRecord (c : Catalog) (id : Nat) : Option FileRecord :=
  c.records.find? (fun r => r.id = id)

/-- The error taxonomy of §7 restricted to what the modelled operations
produce. -/
inductive Err
  | notFound
  | validation
  | parentNotFound
  | notAFolder
  | storageFault
deriving DecidableEq, Repr

/-- The Blob Store state (§4.4): stored blobs by locator, a counter for
generating fresh locators, and a flag modelling an unwritable medium. -/
structure BlobStore where
  blobs : List (String × List Nat)
  nextLoc : Nat
  failing : Bool
deriving DecidableEq, Repr

/-- A freshly generated, collision-free locator (§4.4): derived from an
internal counter, never from user-supplied names. -/
def freshLocator (n : Nat) : String := "blob" ++ toString n

/-- Modelled from the spec: `put(bytes) -> locator` of the Blob Store
(§4.4); the utils/files writer is missing from the source tree.  Persists
the bytes under a newly generated locator, or fails with a storage error
when the medium is unwritable. -/
def blobPut (b : BlobStore) (bytes : List Nat) : Except Err (BlobStore × String) :=
  if b.failing then Except.error Err.storageFault
  else
    Except.ok (⟨(freshLocator b.nextLoc, bytes) :: b.blobs, b.nextLoc + 1, b.failing⟩,
      freshLocator b.nextLoc)

/-- Modelled from the spec: `get(locator) -> bytes | NotFound` of the Blob
Store (§4.4). -/
def blobGet (b : BlobStore) (loc : String) : Option (List Nat) :=
  (b.blobs.find? (fun e => e.1 = loc)).map (fun e => e.2)

/-- An internal Blob Store write at a caller-computed locator, used by the
thumbnail worker to store derivatives at their deterministic locators. -/
def blobPutAt (b : BlobStore) (loc : String) (bytes : List Nat) : BlobStore :=
  ⟨(loc, bytes) :: b.blobs.filter (fun e => e.1 ≠ loc), b.nextLoc, b.failing⟩

/-- A Thumbnail Pipeline job (§4.3): the new record's identifier and
locator. -/
structure ThumbJob where
  fileId : Nat
  locator : String
deriving DecidableEq, Repr

/-- The per-image pipeline states (§4.5). -/
inductive PipeState
  | pending
  | generating
  | done
  | failed
deriving DecidableEq, Repr

/-- The combined state the create operation acts on: catalog, blob store
and the thumbnail job queue. -/
structure SysState where
  catalog : Catalog
  blobs : BlobStore
  jobs : List ThumbJob
deriving DecidableEq, Repr

/-- Modelled from the spec: the parent validation of `create` (§4.3) —
"parent not found" unless a record with that identifier and the same owner
exists, "not a folder" if it is not kind=folder; parent 0 is the root
sentinel and always valid. -/
def checkParent (c : Catalog) (owner parentID : Nat) : Option Err :=
  if parentID = 0 then none
  else
    match findRecord c parentID with
    | none => some Err.parentNotFound
    | some p =>
      if p.owner ≠ owner then some Err.parentNotFound
      else if p.kind ≠ FileKind.folder then some Err.notAFolder
      else none

/-- Modelled from the spec: `create(owner, name, kind, parentID, isPublic,
bytes?) -> FileRecord` of the File Catalog (§4.3); the FilesController is
missing from the source tree.  Validates the name and parent; for
non-folder kinds hands the bytes to the Blob Store first and aborts with no
catalog write if that fails, otherwise inserts the record with the locator
the Blob Store returned; for kind=image enqueues a thumbnail job after the
record is written. -/
def create (s : SysState) (owner : Nat) (name : String) (kind : FileKind)
    (parentID : Nat) (isPublic : Bool) (bytes : List Nat) :
    Except Err FileRecord × SysState :=
  if name = "" then (Except.error Err.validation, s)
  else
    match checkParent s.catalog owner parentID with
    | some e => (Except.error e, s)
    | none =>
      match kind with
      | FileKind.folder =>
        let r0 : FileRecord := ⟨s.catalog.nextId, owner, name, kind, parentID, isPublic, none⟩
        (Except.ok r0, ⟨⟨s.catalog.records ++ [r0], s.catalog.nextId + 1⟩, s.blobs, s.jobs⟩)
      | _ =>
        match blobPut s.blobs bytes with
        | Except.error e => (Except.error e, s)
        | Except.ok (b2, loc) =>
          let r0 : FileRecord := ⟨s.catalog.nextId, owner, name, kind, parentID, isPublic, some loc⟩
          (Except.ok r0,
           ⟨⟨s.catalog.records ++ [r0], s.catalog.nextId + 1⟩, b2,
            if kind = FileKind.image then s.jobs ++ [⟨s.catalog.nextId, loc⟩] else s.jobs⟩)

/-- Modelled from the spec: `get(id, requester) -> FileRecord` of the File
Catalog (§4.3); the FilesController is missing from the source tree.
Fails "not found" if the record is absent or if the read authorization of
§4.1 (public flag or owner match) denies. -/
def get (c : Catalog) (id requester : Nat) : Except Err FileRecord :=
  match findRecord c id with
  | none => Except.error Err.notFound
  | some r =>
    if r.isPublic || r.owner = requester then Except.ok r
    else Except.error Err.notFound

/-- The three thumbnail target widths (§3, §4.5). -/
def thumbWidths : List Nat := [500, 250, 100]

/-- The deterministic locator of a derivative: computed from the parent
locator and the target width (§4.5). -/
def thumbLoc (loc : String) (w : Nat) : String := loc ++ "_" ++ toString w

/-- Modelled from the spec: the image decoder of the thumbnail worker
(§4.5), missing from the source tree.  Decoding fails exactly on
corrupt/unsupported bytes; well-formed images are represented concretely as
byte sequences beginning with the PNG signature byte 137. -/
def decodeImage (bytes : List Nat) : Option (List Nat) :=
  if bytes.head? = some 137 then some bytes else none

/-- Modelled from the spec: resizing to a target width preserving aspect
ratio, then re-encoding (§4.5); represented abstractly as tagging the
decoded bytes with the width. -/
def resizeTo (img : List Nat) (w : Nat) : List Nat := w :: img

/-- Modelled from the spec: one thumbnail worker step (§4.5), the worker
being missing from the source tree.  A decode failure (corrupt image) is
terminal: the job ends `failed` with no derivative written; otherwise each
target width's derivative is written to the Blob Store at its
deterministic locator and the job ends `done`. -/
def processJob (b : BlobStore) (job : ThumbJob) : BlobStore × PipeState :=
  match blobGet b job.locator with
  | none => (b, PipeState.failed)
  | some bytes =>
    match decodeImage bytes with
    | none => (b, PipeState.failed)
    | some img =>
      (thumbWidths.foldl (fun acc w => blobPutAt acc (thumbLoc job.locator w) (resizeTo img w)) b,
       PipeState.done)

/-- Modelled from the spec: `getFile` — data retrieval (§8, §4.4); the
FilesController is missing from the source tree.  A record that is absent,
or private and not owned by the requester, yields NotFound (the
visibility-leak-avoiding policy of §4.1); otherwise the bytes are fetched
from the Blob Store, at the derivative locator when a width is given, and
a missing derivative yields NotFound for that width. -/
def getFile (c : Catalog) (b : BlobStore) (id : Nat) (requester : Option Nat)
    (width : Option Nat) : Except Err (List Nat) :=
  match findRecord c id with
  | none => Except.error Err.notFound
  | some r =>
    if r.isPublic || requester = some r.owner then
      match r.locator with
      | none => Except.error Err.validation
      | some loc =>
        let loc2 := match width with
          | none => loc
          | some w => thumbLoc loc w
        match blobGet b loc2 with
        | none => Except.error Err.notFound
        | some bytes => Except.ok bytes
    else Except.error Err.notFound

/-- Modelled from the spec: `list(owner, parentID, page, pageSize=20)` of
the File Catalog (§4.3); the FilesController is missing from the source
tree.  Filters to records whose owner and parent match, keeps creation
order, and returns the page of fixed size 20 starting at offset
`page * 20`. -/
def listFiles (c : Catalog) (owner parentID page : Nat) : List FileRecord :=
  (((c.records.filter (fun r => r.owner = owner && r.parent = parentID)).drop (page * 20)).take 20)

/-- Replace a record's public flag. -/
def setFlag (v : Bool) (x : FileRecord) : FileRecord :=
  ⟨x.id, x.owner, x.name, x.kind, x.parent, v, x.locator⟩

/-- Modelled from the spec: `setPublic(id, requester, value)` of the File
Catalog (§4.3); the FilesController is missing from the source tree.
Fails per the visibility-leak-avoiding rule if the record is absent or the
requester is not the owner; otherwise sets the public flag to the given
value (a no-op success when the value already matches). -/
def setPublic (c : Catalog) (id requester : Nat) (value : Bool) : Except Err Catalog :=
  match findRecord c id with
  | none => Except.error Err.notFound
  | some r =>
    if r.owner = requester then
      Except.ok ⟨c.records.map (fun x => if x.id = id then setFlag value x else x), c.nextId⟩
    else Except.error Err.notFound

/-- Publishing then unpublishing, as one operation (§8). -/
def publishThenUnpublish (c : Catalog) (id requester : Nat) : Except Err Catalog :=
  match setPublic c id requester true with
  | Except.error e => Except.error e
  | Except.ok c1 => setPublic c1 id requester false

/-- A one-record catalog whose single file is already public, owned by
user 7. -/
def pubCatalog : Catalog :=
  ⟨[⟨1, 7, "a.txt", FileKind.file, 0, true, some "blob0"⟩], 2⟩

/-- A catalog where user 1 owns exactly five top-level files. -/
def fiveCatalog : Catalog :=
  ⟨[⟨1, 1, "f1", FileKind.file, 0, false, some "blob0"⟩,
    ⟨2, 1, "f2", FileKind.file, 0, false, some "blob1"⟩,
    ⟨3, 1, "f3", FileKind.file, 0, false, some "blob2"⟩,
    ⟨4, 1, "f4", FileKind.file, 0, false, some "blob3"⟩,
    ⟨5, 1, "f5", FileKind.file, 0, false, some "blob4"⟩], 6⟩

/-! ## Theorems -/

theorem rGet_rSet_self (s : TTLStore) (key value : String) (duration now t : Nat) :
    rGet (rSet s key value duration now) key t =
      if t < now + duration then some value else none := by
  simp [rGet, rSet, List.find?]

theorem rGet_rDel_self (s : TTLStore) (key : String) (t : Nat) :
    rGet (rDel s key) key t = none := by
  unfold rGet rDel
  have h : (s.entries.filter (fun e => e.1 ≠ key)).find? (fun e => e.1 = key) = none := by
    rw [List.find?_eq_none]
    intro e he
    have := List.of_mem_filter he
    simp only [decide_eq_true_eq] at this ⊢
    exact fun hk => this hk
  rw [h]

theorem rDel_idem (s : TTLStore) (key : String) :
    rDel (rDel s key) key = rDel s key := by
  unfold rDel
  simp [List.filter_filter]

/-- C2: a token issued by `issue(user)` resolves through `lookup` to that
same user at any instant strictly before the 24-hour expiry and before a
revoke; at or after the expiry, or after `revoke(token)`, `lookup` returns
absent. -/
theorem claim_C2 (s : TTLStore) (token user : String) (t0 t : Nat) :
    (t < t0 + tokenTTL → lookup (issue s token user t0) token t = some user) ∧
    (t0 + tokenTTL ≤ t → lookup (issue s token user t0) token t = none) ∧
    lookup (revoke (issue s token user t0) token) token t = none := by
  refine ⟨?_, ?_, ?_⟩
  · intro h
    simp [lookup, issue, rGet_rSet_self, h]
  · intro h
    simp [lookup, issue, rGet_rSet_self, Nat.not_lt.mpr h]
  · simp [lookup, revoke, rGet_rDel_self]

/-- Witness for C2 at a concrete store and times: 86399 s is before the
24-hour expiry, 86400 s is at it. -/
theorem claim_C2_witness :
    lookup (issue TTLStore.empty "tok" "u1" 0) "tok" 86399 = some "u1" ∧
    lookup (issue TTLStore.empty "tok" "u1" 0) "tok" 86400 = none ∧
    lookup (revoke (issue TTLStore.empty "tok" "u1" 0) "tok") "tok" 10 = none :=
  ⟨(claim_C2 TTLStore.empty "tok" "u1" 0 86399).1 (by decide),
   (claim_C2 TTLStore.empty "tok" "u1" 0 86400).2.1 (by decide),
   (claim_C2 TTLStore.empty "tok" "u1" 0 10).2.2⟩

/-- C7: `revoke(token)` deletes the token mapping immediately (a lookup at
any later instant is absent), repeating the revoke any positive number of
times yields the same cache state as one revoke, and revoking a token with
no stored mapping succeeds as a no-op (the state is unchanged, no error is
possible). -/
theorem claim_C7 (s : TTLStore) (token : String) :
    (∀ t, lookup (revoke s token) token t = none) ∧
    (∀ n : Nat, (fun st => revoke st token)^[n + 1] s = revoke s token) ∧
    (s.entries.find? (fun e => e.1 = tokenKey token) = none → revoke s token = s) := by
  refine ⟨?_, ?_, ?_⟩
  · intro t
    simp [lookup, revoke, rGet_rDel_self]
  · intro n
    induction n with
    | zero => simp
    | succ m ih =>
      rw [Function.iterate_succ_apply', ih]
      exact rDel_idem s (tokenKey token)
  · intro h
    have hall := List.find?_eq_none.mp h
    unfold revoke rDel
    have : s.entries.filter (fun e => e.1 ≠ tokenKey token) = s.entries := by
      rw [List.filter_eq_self]
      intro e he
      have := hall e he
      simp only [decide_eq_true_eq] at this ⊢
      exact this
    rw [this]

/-- Witness for C7 at a concrete store holding an unrelated key: the
revoked token stays absent, a triple revoke equals a single one, and
revoking the unknown token leaves the store unchanged. -/
theorem claim_C7_witness :
    lookup (revoke (TTLStore.mk [("auth_other", Entry.mk "u7" (some 100))]) "tok") "tok" 0 = none ∧
    (fun st => revoke st "tok")^[3] (TTLStore.mk [("auth_other", Entry.mk "u7" (some 100))]) =
      revoke (TTLStore.mk [("auth_other", Entry.mk "u7" (some 100))]) "tok" ∧
    revoke (TTLStore.mk [("auth_other", Entry.mk "u7" (some 100))]) "tok" =
      TTLStore.mk [("auth_other", Entry.mk "u7" (some 100))] :=
  ⟨(claim_C7 (TTLStore.mk [("auth_other", Entry.mk "u7" (some 100))]) "tok").1 0,
   (claim_C7 (TTLStore.mk [("auth_other", Entry.mk "u7" (some 100))]) "tok").2.1 2,
   (claim_C7 (TTLStore.mk [("auth_other", Entry.mk "u7" (some 100))]) "tok").2.2 (by decide)⟩

/-- C10: every write performed through the store's `set` method (the only
write path, implemented with SETEX) attaches the explicit finite expiry
`now + duration` to the stored pair, and the mapping is absent from every
lookup at or after that expiry even if never deleted. -/
theorem claim_C10 (s : TTLStore) (key value : String) (duration now : Nat) :
    (rSet s key value duration now).entries.find? (fun e => e.1 = key) =
      some (key, ⟨value, some (now + duration)⟩) ∧
    ∀ t, now + duration ≤ t → rGet (rSet s key value duration now) key t = none := by
  constructor
  · simp [rSet, List.find?]
  · intro t ht
    simp [rGet_rSet_self, Nat.not_lt.mpr ht]

/-- Witness for C10 at a concrete write: the stored entry carries expiry
5 + 60, and a read at instant 65 finds nothing. -/
theorem claim_C10_witness :
    (rSet TTLStore.empty "k" "v" 60 5).entries.find? (fun e => e.1 = "k") =
      some ("k", ⟨"v", some (5 + 60)⟩) ∧
    rGet (rSet TTLStore.empty "k" "v" 60 5) "k" 65 = none :=
  ⟨(claim_C10 TTLStore.empty "k" "v" 60 5).1,
   (claim_C10 TTLStore.empty "k" "v" 60 5).2 65 (by decide)⟩

/-- C4: when the request's token is missing, or its cache lookup yields
absent (unknown or expired entry), `getUserFromXToken` resolves no user and
the X-Token middleware answers exactly 401 Unauthorized — never any other
fault — and its outcome does not depend on the protected handler, which is
therefore never reached. -/
theorem claim_C4 (cache : TTLStore) (users : List String) (token : Option String)
    (now : Nat) (handler : String → ApiResponse) :
    (token = none ∨ ∃ t, token = some t ∧ lookup cache t now = none) →
    getUserFromXToken cache users token now = none ∧
    xTokenAuthenticate (getUserFromXToken cache users token now) handler =
      ⟨401, some "Unauthorized"⟩ ∧
    ∀ handler2, xTokenAuthenticate (getUserFromXToken cache users token now) handler =
      xTokenAuthenticate (getUserFromXToken cache users token now) handler2 := by
  intro h
  have hu : getUserFromXToken cache users token now = none := by
    rcases h with h | ⟨t, ht, hl⟩
    · simp [getUserFromXToken, h]
    · simp [getUserFromXToken, ht, hl]
  refine ⟨hu, ?_, ?_⟩
  · rw [hu]
    rfl
  · intro handler2
    rw [hu]
    rfl

/-- Witness for C4: an empty cache with a presented token. -/
theorem claim_C4_witness :
    getUserFromXToken TTLStore.empty [] (some "t") 0 = none ∧
    xTokenAuthenticate (getUserFromXToken TTLStore.empty [] (some "t") 0)
      (fun _ => ⟨200, none⟩) = ⟨401, some "Unauthorized"⟩ :=
  ⟨(claim_C4 TTLStore.empty [] (some "t") 0 (fun _ => ⟨200, none⟩)
      (Or.inr ⟨"t", rfl, rfl⟩)).1,
   (claim_C4 TTLStore.empty [] (some "t") 0 (fun _ => ⟨200, none⟩)
      (Or.inr ⟨"t", rfl, rfl⟩)).2.1⟩

/-- C9: in the registered route table, the file-data route (GET
/files/:id/data → getFile) carries no middleware, so its outcome never
depends on any resolved token user; every other file route (upload, show,
index, publish, unpublish) carries the X-Token middleware and answers 401
Unauthorized when no user resolves. -/
theorem claim_C9 (xu bu : Option String) (run : ApiResponse) :
    (∀ r ∈ injectRoutes, r.handler = Handler.getFile →
      r.middlewares = [] ∧ runMiddlewares r.middlewares xu bu run = run) ∧
    (∀ r ∈ injectRoutes,
      (r.handler = Handler.postUpload ∨ r.handler = Handler.getShow ∨
       r.handler = Handler.getIndex ∨ r.handler = Handler.putPublish ∨
       r.handler = Handler.putUnpublish) →
      Middleware.xTokenAuth ∈ r.middlewares ∧
      runMiddlewares r.middlewares none bu run = ⟨401, some "Unauthorized"⟩) ∧
    Route.mk "GET" "/files/:id/data" [] Handler.getFile ∈ injectRoutes := by
  refine ⟨?_, ?_, ?_⟩
  · intro r hr hh
    fin_cases hr <;> simp_all [runMiddlewares]
  · intro r hr hh
    fin_cases hr <;> simp_all [runMiddlewares, xTokenAuthenticate]
  · simp [injectRoutes]

/-- Witness for C9: the data route passes an anonymous request through to
the handler outcome, while the upload route rejects it with 401. -/
theorem claim_C9_witness :
    runMiddlewares (Route.mk "GET" "/files/:id/data" [] Handler.getFile).middlewares
      none none ⟨200, none⟩ = ⟨200, none⟩ ∧
    runMiddlewares (Route.mk "POST" "/files" [Middleware.xTokenAuth] Handler.postUpload).middlewares
      none none ⟨200, none⟩ = ⟨401, some "Unauthorized"⟩ :=
  ⟨((claim_C9 none none ⟨200, none⟩).1
      (Route.mk "GET" "/files/:id/data" [] Handler.getFile)
      (by simp [injectRoutes]) rfl).2,
   ((claim_C9 none none ⟨200, none⟩).2.1
      (Route.mk "POST" "/files" [Middleware.xTokenAuth] Handler.postUpload)
      (by simp [injectRoutes]) (Or.inl rfl)).2⟩

/-- C1: a private file read by anyone other than its owner yields NotFound
from both `get` (metadata) and `getFile` (data), and that response is the
very same value both operations produce for an identifier that does not
exist at all — no observer can tell an inaccessible private file from a
nonexistent one. -/
theorem claim_C1 (c : Catalog) (b : BlobStore) (id id2 requester : Nat)
    (w : Option Nat) (r : FileRecord)
    (hfind : findRecord c id = some r) (hpriv : r.isPublic = false)
    (hreq : requester ≠ r.owner) (habs : findRecord c id2 = none) :
    get c id requester = Except.error Err.notFound ∧
    getFile c b id (some requester) w = Except.error Err.notFound ∧
    get c id requester = get c id2 requester ∧
    getFile c b id (some requester) w = getFile c b id2 (some requester) w := by
  have hro : r.owner ≠ requester := fun h => hreq h.symm
  have h1 : get c id requester = Except.error Err.notFound := by
    unfold get
    rw [hfind]
    simp [hpriv, hro]
  have h2 : getFile c b id (some requester) w = Except.error Err.notFound := by
    unfold getFile
    rw [hfind]
    simp [hpriv, hreq]
  have h3 : get c id2 requester = Except.error Err.notFound := by
    unfold get
    rw [habs]
  have h4 : getFile c b id2 (some requester) w = Except.error Err.notFound := by
    unfold getFile
    rw [habs]
  exact ⟨h1, h2, h1.trans h3.symm, h2.trans h4.symm⟩

/-- Witness for C1: a catalog holding one private file of user 1, read by
user 2, against the absent identifier 99. -/
theorem claim_C1_witness :
    get (Catalog.mk [FileRecord.mk 1 1 "secret" FileKind.file 0 false (some "blob0")] 2)
      1 2 = Except.error Err.notFound ∧
    getFile (Catalog.mk [FileRecord.mk 1 1 "secret" FileKind.file 0 false (some "blob0")] 2)
      (BlobStore.mk [("blob0", [137, 1])] 1 false) 1 (some 2) none =
        Except.error Err.notFound :=
  ⟨(claim_C1 (Catalog.mk [FileRecord.mk 1 1 "secret" FileKind.file 0 false (some "blob0")] 2)
      (BlobStore.mk [("blob0", [137, 1])] 1 false) 1 99 2 none
      (FileRecord.mk 1 1 "secret" FileKind.file 0 false (some "blob0"))
      rfl rfl (by decide) rfl).1,
   (claim_C1 (Catalog.mk [FileRecord.mk 1 1 "secret" FileKind.file 0 false (some "blob0")] 2)
      (BlobStore.mk [("blob0", [137, 1])] 1 false) 1 99 2 none
      (FileRecord.mk 1 1 "secret" FileKind.file 0 false (some "blob0"))
      rfl rfl (by decide) rfl).2.1⟩

/-- C3: for a non-folder create, when the Blob Store is unwritable the
whole system state (catalog included) is left untouched and the request
fails with a storage fault; when the Blob Store write succeeds the created
record's locator is exactly the locator the Blob Store returned, the
resulting blob state is the one the Blob Store produced, and the record is
in the catalog. -/
theorem claim_C3 (s : SysState) (owner : Nat) (name : String) (kind : FileKind)
    (parentID : Nat) (isPublic : Bool) (bytes : List Nat)
    (hk : kind ≠ FileKind.folder) :
    (s.blobs.failing = true →
      (create s owner name kind parentID isPublic bytes).2 = s ∧
      (name ≠ "" → checkParent s.catalog owner parentID = none →
        (create s owner name kind parentID isPublic bytes).1 =
          Except.error Err.storageFault)) ∧
    (∀ b2 loc, blobPut s.blobs bytes = Except.ok (b2, loc) →
      name ≠ "" → checkParent s.catalog owner parentID = none →
      (create s owner name kind parentID isPublic bytes).1 =
        Except.ok (FileRecord.mk s.catalog.nextId owner name kind parentID isPublic (some loc)) ∧
      (create s owner name kind parentID isPublic bytes).2.blobs = b2 ∧
      FileRecord.mk s.catalog.nextId owner name kind parentID isPublic (some loc) ∈
        (create s owner name kind parentID isPublic bytes).2.catalog.records) := by
  constructor
  · intro hfail
    constructor
    · by_cases hn : name = ""
      · simp [create, hn]
      · cases hcp : checkParent s.catalog owner parentID with
        | some e => simp [create, hn, hcp]
        | none =>
          cases kind with
          | folder => exact absurd rfl hk
          | file => simp [create, hn, hcp, blobPut, hfail]
          | image => simp [create, hn, hcp, blobPut, hfail]
    · intro hn hcp
      cases kind with
      | folder => exact absurd rfl hk
      | file => simp [create, hn, hcp, blobPut, hfail]
      | image => simp [create, hn, hcp, blobPut, hfail]
  · intro b2 loc hput hn hcp
    cases kind with
    | folder => exact absurd rfl hk
    | file => simp [create, hn, hcp, hput]
    | image => simp [create, hn, hcp, hput]

/-- Witness for C3: the failing branch on an unwritable blob store, and
the success branch on a writable one, both from empty states. -/
theorem claim_C3_witness :
    (create (SysState.mk (Catalog.mk [] 0) (BlobStore.mk [] 0 true) [])
      1 "f.txt" FileKind.file 0 false [1, 2]).2 =
      SysState.mk (Catalog.mk [] 0) (BlobStore.mk [] 0 true) [] ∧
    (create (SysState.mk (Catalog.mk [] 0) (BlobStore.mk [] 0 false) [])
      1 "f.txt" FileKind.file 0 false [1, 2]).1 =
      Except.ok (FileRecord.mk 0 1 "f.txt" FileKind.file 0 false (some "blob0")) :=
  ⟨((claim_C3 (SysState.mk (Catalog.mk [] 0) (BlobStore.mk [] 0 true) [])
      1 "f.txt" FileKind.file 0 false [1, 2] (by decide)).1 rfl).1,
   (((claim_C3 (SysState.mk (Catalog.mk [] 0) (BlobStore.mk [] 0 false) [])
      1 "f.txt" FileKind.file 0 false [1, 2] (by decide)).2
      (BlobStore.mk [("blob0", [1, 2])] 1 false) "blob0" rfl
      (by decide) rfl).1)⟩

/-- C5: `list` returns only records whose owner and parent match, in
creation order (a sublist of the creation-ordered filtered catalog), in
pages of at most 20 records; any page whose offset is at or beyond the
number of matching records yields the empty sequence (and the operation is
total — it never errors). -/
theorem claim_C5 (c : Catalog) (owner parentID page : Nat) :
    (∀ r ∈ listFiles c owner parentID page, r.owner = owner ∧ r.parent = parentID) ∧
    (listFiles c owner parentID page).Sublist
      (c.records.filter (fun r => r.owner = owner && r.parent = parentID)) ∧
    (listFiles c owner parentID page).length ≤ 20 ∧
    ((c.records.filter (fun r => r.owner = owner && r.parent = parentID)).length ≤ page * 20 →
      listFiles c owner parentID page = []) := by
  refine ⟨?_, ?_, ?_, ?_⟩
  · intro r hr
    simp only [listFiles] at hr
    have hmem : r ∈ c.records.filter (fun r => r.owner = owner && r.parent = parentID) :=
      List.mem_of_mem_drop (List.mem_of_mem_take hr)
    have := List.of_mem_filter hmem
    simp only [Bool.and_eq_true, decide_eq_true_eq] at this
    exact this
  · exact (List.take_sublist _ _).trans (List.drop_sublist _ _)
  · exact List.length_take_le _ _
  · intro hle
    unfold listFiles
    rw [List.drop_eq_nil_of_le hle]
    rfl

/-- Witness for C5, the spec's scenario: user 1 owns exactly five top-level
files and page 2 (offset 40) is empty; on page 0 the first file is
returned with matching owner and parent. -/
theorem claim_C5_witness :
    listFiles fiveCatalog 1 0 2 = [] ∧
    ((FileRecord.mk 1 1 "f1" FileKind.file 0 false (some "blob0")).owner = 1 ∧
     (FileRecord.mk 1 1 "f1" FileKind.file 0 false (some "blob0")).parent = 0) :=
  ⟨(claim_C5 fiveCatalog 1 0 2).2.2.2 (by decide),
   (claim_C5 fiveCatalog 1 0 0).1
     (FileRecord.mk 1 1 "f1" FileKind.file 0 false (some "blob0")) (by decide)⟩

theorem setFlag_id (v : Bool) (x : FileRecord) : (setFlag v x).id = x.id := rfl

theorem findRecord_setFlagMap (c : Catalog) (id : Nat) (v : Bool) (r : FileRecord)
    (hfind : findRecord c id = some r) :
    findRecord ⟨c.records.map (fun x => if x.id = id then setFlag v x else x), c.nextId⟩ id =
      some (setFlag v r) := by
  have hrid : r.id = id := by
    have := List.find?_some hfind
    simpa using this
  have hpf : ((fun x : FileRecord => decide (x.id = id)) ∘
      (fun x => if x.id = id then setFlag v x else x)) =
      (fun x : FileRecord => decide (x.id = id)) := by
    funext x
    by_cases h : x.id = id <;> simp [setFlag, h]
  unfold findRecord at hfind ⊢
  rw [List.find?_map, hpf, hfind]
  simp [hrid]

theorem setFlagMap_idem (l : List FileRecord) (id : Nat) (v : Bool) :
    (l.map (fun x => if x.id = id then setFlag v x else x)).map
      (fun x => if x.id = id then setFlag v x else x) =
    l.map (fun x => if x.id = id then setFlag v x else x) := by
  rw [List.map_map]
  apply List.map_congr_left
  intro x _
  by_cases h : x.id = id <;> simp [Function.comp, setFlag, h]

/-- Counterexample to C6 as stated: `pubCatalog` holds a single file that
is already public (flag true).  Its owner publishing then unpublishing it
yields a catalog whose record is private — the original visibility (public)
is not restored, so the publish/unpublish pair is not a return to the
starting state for an initially public file. -/
theorem claim_C6_counterexample :
    publishThenUnpublish pubCatalog 1 7 =
      Except.ok (Catalog.mk [FileRecord.mk 1 7 "a.txt" FileKind.file 0 false (some "blob0")] 2) ∧
    (findRecord pubCatalog 1).map FileRecord.isPublic = some true ∧
    (findRecord (Catalog.mk [FileRecord.mk 1 7 "a.txt" FileKind.file 0 false (some "blob0")] 2)
      1).map FileRecord.isPublic = some false := by
  refine ⟨?_, ?_, ?_⟩ <;> rfl

/-- C6 (amended): for a file whose public flag is initially false — the
default — `setPublic(id, owner, true)` followed by `setPublic(id, owner,
false)` restores the record, hence every observer's `get` outcome, to the
original; and regardless of the initial flag each `setPublic` call is
idempotent: repeating it with the same value is a no-op success returning
the same catalog. -/
theorem claim_C6 (c : Catalog) (id u : Nat) (r : FileRecord)
    (hfind : findRecord c id = some r) (hown : r.owner = u) :
    (r.isPublic = false →
      ∃ c1 c2, setPublic c id u true = Except.ok c1 ∧
        setPublic c1 id u false = Except.ok c2 ∧
        findRecord c2 id = findRecord c id ∧
        ∀ requester, get c2 id requester = get c id requester) ∧
    (∀ v c', setPublic c id u v = Except.ok c' → setPublic c' id u v = Except.ok c') := by
  constructor
  · intro hpub
    refine ⟨⟨c.records.map (fun x => if x.id = id then setFlag true x else x), c.nextId⟩,
      ⟨(c.records.map (fun x => if x.id = id then setFlag true x else x)).map
        (fun x => if x.id = id then setFlag false x else x), c.nextId⟩, ?_, ?_, ?_, ?_⟩
    · unfold setPublic
      rw [hfind]
      simp [hown]
    · unfold setPublic
      rw [findRecord_setFlagMap c id true r hfind]
      simp [setFlag, hown]
    · have h2 : findRecord
        ⟨(c.records.map (fun x => if x.id = id then setFlag true x else x)).map
          (fun x => if x.id = id then setFlag false x else x), c.nextId⟩ id =
          some (setFlag false (setFlag true r)) :=
        findRecord_setFlagMap _ id false (setFlag true r)
          (findRecord_setFlagMap c id true r hfind)
      rw [h2, hfind]
      obtain ⟨rid, row, rna, rki, rpa, rpu, rlo⟩ := r
      simp only [FileRecord.mk.injEq, setFlag]
      simp_all
    · intro requester
      have h2 : findRecord
        ⟨(c.records.map (fun x => if x.id = id then setFlag true x else x)).map
          (fun x => if x.id = id then setFlag false x else x), c.nextId⟩ id =
          some (setFlag false (setFlag true r)) :=
        findRecord_setFlagMap _ id false (setFlag true r)
          (findRecord_setFlagMap c id true r hfind)
      have hr2 : setFlag false (setFlag true r) = r := by
        obtain ⟨rid, row, rna, rki, rpa, rpu, rlo⟩ := r
        simp only [setFlag]
        simp_all
      unfold get
      rw [h2, hr2, hfind]
  · intro v c' hok
    have hc' : c' = ⟨c.records.map (fun x => if x.id = id then setFlag v x else x), c.nextId⟩ := by
      unfold setPublic at hok
      rw [hfind] at hok
      simp [hown] at hok
      exact hok.symm
    subst hc'
    unfold setPublic
    rw [findRecord_setFlagMap c id v r hfind]
    have ho : (setFlag v r).owner = u := hown
    simp [ho, setFlagMap_idem]
    intro a _ h2
    by_cases h : a.id = id
    · simp [h, setFlag]
    · rw [if_neg h] at h2
      exact absurd h2 h

/-- Witness for the amended C6: a catalog with one private file of user 7;
the publish/unpublish pair restores the record and a repeated publish is a
no-op. -/
theorem claim_C6_witness :
    (∃ c1 c2,
      setPublic (Catalog.mk [FileRecord.mk 1 7 "a.txt" FileKind.file 0 false (some "blob0")] 2)
        1 7 true = Except.ok c1 ∧
      setPublic c1 1 7 false = Except.ok c2 ∧
      findRecord c2 1 =
        findRecord (Catalog.mk [FileRecord.mk 1 7 "a.txt" FileKind.file 0 false (some "blob0")] 2) 1 ∧
      ∀ requester, get c2 1 requester =
        get (Catalog.mk [FileRecord.mk 1 7 "a.txt" FileKind.file 0 false (some "blob0")] 2)
          1 requester) ∧
    setPublic (Catalog.mk [FileRecord.mk 1 7 "a.txt" FileKind.file 0 true (some "blob0")] 2)
      1 7 true = Except.ok
        (Catalog.mk [FileRecord.mk 1 7 "a.txt" FileKind.file 0 true (some "blob0")] 2) :=
  ⟨(claim_C6 (Catalog.mk [FileRecord.mk 1 7 "a.txt" FileKind.file 0 false (some "blob0")] 2)
      1 7 (FileRecord.mk 1 7 "a.txt" FileKind.file 0 false (some "blob0")) rfl rfl).1 rfl,
   (claim_C6 (Catalog.mk [FileRecord.mk 1 7 "a.txt" FileKind.file 0 true (some "blob0")] 2)
      1 7 (FileRecord.mk 1 7 "a.txt" FileKind.file 0 true (some "blob0")) rfl rfl).2 true
      (Catalog.mk [FileRecord.mk 1 7 "a.txt" FileKind.file 0 true (some "blob0")] 2) rfl⟩

theorem thumbLoc_ne (loc : String) (w : Nat) : thumbLoc loc w ≠ loc := by
  intro h
  have hl := congrArg String.length h
  simp only [thumbLoc, String.length_append] at hl
  have h1 : ("_" : String).length = 1 := rfl
  rw [h1] at hl
  omega

/-- C8: creating a non-image file never enqueues a thumbnail job (the job
queue is untouched on every path); creating a corrupt image still succeeds,
while processing its enqueued job ends in the `failed` state writing no
derivative, so no thumbnail is retrievable at any of the widths 500, 250,
100. -/
theorem claim_C8 :
    (∀ s owner name kind parentID isPublic bytes, kind ≠ FileKind.image →
      (create s owner name kind parentID isPublic bytes).2.jobs = s.jobs) ∧
    (∀ (s : SysState) owner name parentID isPublic bytes,
      name ≠ "" → checkParent s.catalog owner parentID = none →
      s.blobs.failing = false → decodeImage bytes = none →
      findRecord s.catalog s.catalog.nextId = none →
      (∀ w ∈ thumbWidths,
        blobGet s.blobs (thumbLoc (freshLocator s.blobs.nextLoc) w) = none) →
      ∃ r0, (create s owner name FileKind.image parentID isPublic bytes).1 = Except.ok r0 ∧
        ThumbJob.mk s.catalog.nextId (freshLocator s.blobs.nextLoc) ∈
          (create s owner name FileKind.image parentID isPublic bytes).2.jobs ∧
        processJob (create s owner name FileKind.image parentID isPublic bytes).2.blobs
            (ThumbJob.mk s.catalog.nextId (freshLocator s.blobs.nextLoc)) =
          ((create s owner name FileKind.image parentID isPublic bytes).2.blobs,
            PipeState.failed) ∧
        ∀ w ∈ thumbWidths,
          getFile (create s owner name FileKind.image parentID isPublic bytes).2.catalog
              (create s owner name FileKind.image parentID isPublic bytes).2.blobs
              r0.id (some owner) (some w) =
            Except.error Err.notFound) := by
  constructor
  · intro s owner name kind parentID isPublic bytes hk
    by_cases hn : name = ""
    · simp [create, hn]
    · cases hcp : checkParent s.catalog owner parentID with
      | some e => simp [create, hn, hcp]
      | none =>
        cases kind with
        | image => exact absurd rfl hk
        | folder => simp [create, hn, hcp]
        | file =>
          cases hput : blobPut s.blobs bytes with
          | error e => simp [create, hn, hcp, hput]
          | ok p =>
            obtain ⟨b2, loc⟩ := p
            simp [create, hn, hcp, hput]
  · intro s owner name parentID isPublic bytes hn hcp hfail hcor hid hfresh
    have hput : blobPut s.blobs bytes = Except.ok
        (BlobStore.mk ((freshLocator s.blobs.nextLoc, bytes) :: s.blobs.blobs)
          (s.blobs.nextLoc + 1) s.blobs.failing, freshLocator s.blobs.nextLoc) := by
      simp [blobPut, hfail]
    have hcr : create s owner name FileKind.image parentID isPublic bytes =
        (Except.ok (FileRecord.mk s.catalog.nextId owner name FileKind.image parentID isPublic
            (some (freshLocator s.blobs.nextLoc))),
         SysState.mk
           (Catalog.mk (s.catalog.records ++
             [FileRecord.mk s.catalog.nextId owner name FileKind.image parentID isPublic
               (some (freshLocator s.blobs.nextLoc))]) (s.catalog.nextId + 1))
           (BlobStore.mk ((freshLocator s.blobs.nextLoc, bytes) :: s.blobs.blobs)
             (s.blobs.nextLoc + 1) s.blobs.failing)
           (s.jobs ++ [ThumbJob.mk s.catalog.nextId (freshLocator s.blobs.nextLoc)])) := by
      simp [create, hn, hcp, hput]
    refine ⟨FileRecord.mk s.catalog.nextId owner name FileKind.image parentID isPublic
      (some (freshLocator s.blobs.nextLoc)), ?_, ?_, ?_, ?_⟩
    · rw [hcr]
    · rw [hcr]
      simp
    · rw [hcr]
      simp [processJob, blobGet, hcor]
    · intro w hw
      rw [hcr]
      have hfind2 : findRecord
          (Catalog.mk (s.catalog.records ++
            [FileRecord.mk s.catalog.nextId owner name FileKind.image parentID isPublic
              (some (freshLocator s.blobs.nextLoc))]) (s.catalog.nextId + 1))
          s.catalog.nextId =
          some (FileRecord.mk s.catalog.nextId owner name FileKind.image parentID isPublic
            (some (freshLocator s.blobs.nextLoc))) := by
        unfold findRecord at hid ⊢
        rw [List.find?_append, hid]
        simp
      have hbg : blobGet
          (BlobStore.mk ((freshLocator s.blobs.nextLoc, bytes) :: s.blobs.blobs)
            (s.blobs.nextLoc + 1) s.blobs.failing)
          (thumbLoc (freshLocator s.blobs.nextLoc) w) = none := by
        have hne := thumbLoc_ne (freshLocator s.blobs.nextLoc) w
        have hf := hfresh w hw
        unfold blobGet at hf ⊢
        simp only [List.find?]
        rw [show (decide ((freshLocator s.blobs.nextLoc, bytes).1 =
            thumbLoc (freshLocator s.blobs.nextLoc) w)) = false from
          decide_eq_false (fun h => hne h.symm)]
        exact hf
      simp [getFile, hfind2, hbg]

/-- Witness for C8: creating a plain file from an empty state enqueues
nothing, and creating the corrupt one-byte image `[0]` succeeds while its
job fails with no 500-wide thumbnail retrievable. -/
theorem claim_C8_witness :
    (create (SysState.mk (Catalog.mk [] 0) (BlobStore.mk [] 0 false) [])
      1 "f.txt" FileKind.file 0 false [1, 2]).2.jobs = [] ∧
    ∃ r0, (create (SysState.mk (Catalog.mk [] 0) (BlobStore.mk [] 0 false) [])
        1 "bad.png" FileKind.image 0 false [0]).1 = Except.ok r0 ∧
      ThumbJob.mk 0 (freshLocator 0) ∈
        (create (SysState.mk (Catalog.mk [] 0) (BlobStore.mk [] 0 false) [])
          1 "bad.png" FileKind.image 0 false [0]).2.jobs ∧
      processJob (create (SysState.mk (Catalog.mk [] 0) (BlobStore.mk [] 0 false) [])
          1 "bad.png" FileKind.image 0 false [0]).2.blobs (ThumbJob.mk 0 (freshLocator 0)) =
        ((create (SysState.mk (Catalog.mk [] 0) (BlobStore.mk [] 0 false) [])
          1 "bad.png" FileKind.image 0 false [0]).2.blobs, PipeState.failed) ∧
      ∀ w ∈ thumbWidths,
        getFile (create (SysState.mk (Catalog.mk [] 0) (BlobStore.mk [] 0 false) [])
            1 "bad.png" FileKind.image 0 false [0]).2.catalog
          (create (SysState.mk (Catalog.mk [] 0) (BlobStore.mk [] 0 false) [])
            1 "bad.png" FileKind.image 0 false [0]).2.blobs
          r0.id (some 1) (some w) = Except.error Err.notFound :=
  ⟨claim_C8.1 (SysState.mk (Catalog.mk [] 0) (BlobStore.mk [] 0 false) [])
      1 "f.txt" FileKind.file 0 false [1, 2] (by decide),
   claim_C8.2 (SysState.mk (Catalog.mk [] 0) (BlobStore.mk [] 0 false) [])
      1 "bad.png" 0 false [0] (by decide) rfl rfl rfl rfl
      (by intro w _; rfl)⟩

end FilesManager
